import Mathlib

/-!
# Variable scope demo (`01.variables-operators/src/main.go`)

The Go program has one package-level variable `level`, an entry function `main`
and a second function `funcScope`.  Both functions are embedded as state
transformers over the package-level variable and the bytes written to standard
output.  A ghost history of events is carried along so that statements about
the order of assignments, prints and the call can be phrased.  A second
embedding, in the namespace `Run`, takes the behaviour of standard output as a
parameter, so that a refused write and a broken pipe can be expressed.
-/

namespace ScopeDemo

/-- Observable steps of the program, recorded in execution order.  The snapshot
carried by `print`, `call` and `ret` is the value of `level` at that moment. -/
inductive Event where
  | assign (v : String)
  | print (line : String) (level : String)
  | call (fn : String) (level : String)
  | ret (fn : String) (level : String)
  deriving DecidableEq

/-- Program state: the package-level variable `level`, the bytes written to
standard output so far, and the ghost history. -/
structure State where
  level : String
  out : String
  events : List Event
  deriving DecidableEq

/-- The state after package initialisation: `var level = "pkg"`, nothing printed. -/
def initial : State :=
  { level := "pkg", out := "", events := [] }

/-- The assignment statement `level = v`. -/
def setLevel (s : State) (v : String) : State :=
  { s with level := v, events := s.events ++ [Event.assign v] }

/-- The call `fmt.Println(operands...)` on string operands: the operands are
written separated by one space and followed by a newline.  The returned byte
count and error are discarded at every call site of the program. -/
def Println (s : State) (operands : List String) : State :=
  { s with
    out := s.out ++ (" ".intercalate operands ++ "\n"),
    events := s.events ++ [Event.print (" ".intercalate operands ++ "\n") s.level] }

/-- Go source, lines 53-55:
`func funcScope() { fmt.Println("funcScope start :", level) }`. -/
def funcScope (s : State) : State :=
  let s := { s with events := s.events ++ [Event.call "funcScope" s.level] }
  let s := Println s ["funcScope start :", s.level]
  { s with events := s.events ++ [Event.ret "funcScope" s.level] }

/-- Go source, lines 38-47: the body of `main`, statement by statement. -/
def main (s : State) : State :=
  let s := setLevel s "main"
  let s := Println s ["Main start  :", s.level]
  if true then
    let s := setLevel s "block"
    let s := Println s ["Block start :", s.level]
    funcScope s
  else
    s

/-! ### The run against a standard output that may refuse a write

`fmt.Println` and the descriptor behind it are not part of the repository.  The
functions above describe the program when every write is accepted.  Below, the
behaviour of standard output is a parameter, and the same two functions are
embedded once more with the results a write can have. -/

namespace Run

/-- What one write of a line to standard output can do: the bytes are taken, or
the write fails after `written` was taken and an error comes back to the
caller, or the reader of the pipe is gone and the write raises SIGPIPE. -/
inductive WriteResult where
  | ok
  | failed (written : String) (err : String)
  | sigpipe
  deriving DecidableEq

/-- Standard output as the program finds it.  Its answer to a write may depend
on the state reached so far and on the text. -/
abbrev Stdout : Type := State → String → WriteResult

/-- A standard output that takes every write. -/
def accepting : Stdout := fun _ _ => WriteResult.ok

/-- A closed descriptor: every write fails with an error and takes nothing. -/
def closed : Stdout := fun _ _ => WriteResult.failed "" "file already closed"

/-- A pipe whose reader is gone. -/
def brokenPipe : Stdout := fun _ _ => WriteResult.sigpipe

/-- How a call ends: it returns a value in a state, or the process is ended by
SIGPIPE in a state and nothing after the call is executed. -/
inductive Result (α : Type) where
  | returned (value : α) (s : State)
  | signaled (s : State)
  deriving DecidableEq

/-- Sequencing of statements: what follows a call runs only when it returned. -/
def Result.andThen {α β : Type} (r : Result α) (k : α → State → Result β) : Result β :=
  match r with
  | Result.returned a s => k a s
  | Result.signaled s => Result.signaled s

/-- The call `fmt.Println(operands...)` with its results `(n int, err error)`.
On a failed write the error is returned to the caller; on a broken pipe the Go
runtime ends the process, since the program installs no handler. -/
def Println (dev : Stdout) (s : State) (operands : List String) :
    Result (Nat × Option String) :=
  match dev s (" ".intercalate operands ++ "\n") with
  | WriteResult.ok =>
    Result.returned ((" ".intercalate operands ++ "\n").utf8ByteSize, none)
      (ScopeDemo.Println s operands)
  | WriteResult.failed written err =>
    Result.returned (written.utf8ByteSize, some err)
      { s with
        out := s.out ++ written,
        events := s.events ++ [Event.print (" ".intercalate operands ++ "\n") s.level] }
  | WriteResult.sigpipe => Result.signaled s

/-- Go source, lines 53-55; the results of `Println` are discarded. -/
def funcScope (dev : Stdout) (s : State) : Result Unit :=
  let s := { s with events := s.events ++ [Event.call "funcScope" s.level] }
  (Println dev s ["funcScope start :", s.level]).andThen fun _ s =>
  Result.returned () { s with events := s.events ++ [Event.ret "funcScope" s.level] }

/-- Go source, lines 38-47; the results of both `Println` calls are discarded. -/
def main (dev : Stdout) (s : State) : Result Unit :=
  let s := setLevel s "main"
  (Println dev s ["Main start  :", s.level]).andThen fun _ s =>
  if true then
    let s := setLevel s "block"
    (Println dev s ["Block start :", s.level]).andThen fun _ s =>
    funcScope dev s
  else
    Result.returned () s

/-- Modelled from the spec: the exit status of the process, which the Go
runtime sets and no code under `src/` does.  Spec section 6: "Exit code: 0 on
normal completion; no other exit path is defined."  A process ended by a signal
has no exit code. -/
def exitCode : Result Unit → Option Nat
  | Result.returned _ _ => some 0
  | Result.signaled _ => none

end Run

/-- Values assigned to `level`, in order, according to the history. -/
def assignments : List Event → List String
  | [] => []
  | Event.assign v :: es => v :: assignments es
  | _ :: es => assignments es

/-- Lines handed to standard output, in order, according to the history. -/
def printed : List Event → List String
  | [] => []
  | Event.print line _ :: es => line :: printed es
  | _ :: es => printed es

/-- Splits bytes into newline-terminated lines; `cur` holds the current line
reversed.  A non-empty unterminated tail is returned as a last line. -/
def linesAux : List Char → List Char → List String
  | [], [] => []
  | [], c :: cur => [String.mk (c :: cur).reverse]
  | c :: cs, cur =>
    if c = '\n' then String.mk cur.reverse :: linesAux cs [] else linesAux cs (c :: cur)

/-- The lines of a piece of output, without their newline terminators. -/
def lines (s : String) : List String :=
  linesAux s.data []

/-- Removes `label` from the front of `line`, if it is there. -/
def stripLabel : List Char → List Char → Option (List Char)
  | [], rest => some rest
  | _ :: _, [] => none
  | a :: as, b :: bs => if a = b then stripLabel as bs else none

/-- The value a printed line shows after its label and the separating space. -/
def valueShown (label line : String) : Option String :=
  (stripLabel (label ++ " ").data line.data).map String.mk

/-- Output of one run of `main` in a fresh process image whose `level`
happens to hold `v`: nothing has been written before `main` starts. -/
def runOutput (v : String) : String :=
  (main { level := v, out := "", events := [] }).out

/-! ## Shared lemmas -/

theorem Println_two (s : State) (a b : String) :
    Println s [a, b] =
      { s with
        out := s.out ++ (a ++ " " ++ b ++ "\n"),
        events := s.events ++ [Event.print (a ++ " " ++ b ++ "\n") s.level] } := by
  simp [Println, String.intercalate, String.intercalate.go]

theorem funcScope_eq (s : State) :
    funcScope s =
      { level := s.level,
        out := s.out ++ ("funcScope start :" ++ " " ++ s.level ++ "\n"),
        events := s.events ++
          [Event.call "funcScope" s.level,
           Event.print ("funcScope start :" ++ " " ++ s.level ++ "\n") s.level,
           Event.ret "funcScope" s.level] } := by
  simp [funcScope, Println_two]

theorem main_eq (s : State) :
    main s =
      { level := "block",
        out := s.out ++ "Main start  : main\n" ++ "Block start : block\n"
          ++ "funcScope start : block\n",
        events := s.events ++
          [Event.assign "main",
           Event.print "Main start  : main\n" "main",
           Event.assign "block",
           Event.print "Block start : block\n" "block",
           Event.call "funcScope" "block",
           Event.print "funcScope start : block\n" "block",
           Event.ret "funcScope" "block"] } := by
  simp [main, funcScope_eq, Println_two, setLevel, String.append_assoc]

theorem string_append_right_inj (p a b : String) : p ++ a = p ++ b ↔ a = b := by
  simp [String.ext_iff]

theorem string_append_left_inj (a b q : String) : a ++ q = b ++ q ↔ a = b := by
  simp [String.ext_iff]

theorem assignments_append (xs ys : List Event) :
    assignments (xs ++ ys) = assignments xs ++ assignments ys := by
  induction xs with
  | nil => rfl
  | cons x xs ih => cases x <;> simp [assignments, ih]

theorem printed_append (xs ys : List Event) :
    printed (xs ++ ys) = printed xs ++ printed ys := by
  induction xs with
  | nil => rfl
  | cons x xs ih => cases x <;> simp [printed, ih]

theorem linesAux_single (xs cur : List Char) (h : ∀ c ∈ xs, c ≠ '\n') :
    linesAux (xs ++ ['\n']) cur = [String.mk (cur.reverse ++ xs)] := by
  induction xs generalizing cur with
  | nil => simp [linesAux]
  | cons x xs ih =>
    have hx : x ≠ '\n' := h x (List.mem_cons_self x xs)
    have hxs : ∀ c ∈ xs, c ≠ '\n' := fun c hc => h c (List.mem_cons_of_mem x hc)
    simp [linesAux, hx, ih (x :: cur) hxs]

theorem lines_single (t : String) (h : ∀ c ∈ t.data, c ≠ '\n') :
    lines (t ++ "\n") = [t] := by
  have := linesAux_single t.data [] h
  simpa [lines] using this

theorem Run_Println_returns (dev : Run.Stdout) (s : State) (a b : String)
    (h : ∀ (s' : State) (t : String), dev s' t ≠ Run.WriteResult.sigpipe) :
    ∃ v s', Run.Println dev s [a, b] = Run.Result.returned v s' ∧
      s'.level = s.level ∧
      s'.events = s.events ++ [Event.print (a ++ " " ++ b ++ "\n") s.level] := by
  have hline : " ".intercalate [a, b] ++ "\n" = a ++ " " ++ b ++ "\n" := by
    simp [String.intercalate, String.intercalate.go]
  unfold Run.Println
  rw [hline]
  cases hd : dev s (a ++ " " ++ b ++ "\n") with
  | ok => exact ⟨_, _, rfl, by simp [Println_two], by simp [Println_two]⟩
  | failed written err => exact ⟨_, _, rfl, rfl, rfl⟩
  | sigpipe => exact absurd hd (h _ _)

theorem Run_funcScope_returns (dev : Run.Stdout) (s : State)
    (h : ∀ (s' : State) (t : String), dev s' t ≠ Run.WriteResult.sigpipe) :
    ∃ s', Run.funcScope dev s = Run.Result.returned () s' ∧
      s'.level = s.level ∧
      s'.events = s.events ++
        [Event.call "funcScope" s.level,
         Event.print ("funcScope start :" ++ " " ++ s.level ++ "\n") s.level,
         Event.ret "funcScope" s.level] := by
  obtain ⟨v, s1, h1, hl1, he1⟩ := Run_Println_returns dev
    { s with events := s.events ++ [Event.call "funcScope" s.level] }
    "funcScope start :" s.level h
  refine ⟨{ s1 with events := s1.events ++ [Event.ret "funcScope" s1.level] }, ?_, ?_, ?_⟩
  · simp only [Run.funcScope]
    rw [h1]; rfl
  · exact hl1
  · simp [he1, hl1]

theorem Run_main_returns (dev : Run.Stdout) (s : State)
    (h : ∀ (s' : State) (t : String), dev s' t ≠ Run.WriteResult.sigpipe) :
    ∃ final, Run.main dev s = Run.Result.returned () final ∧
      final.level = "block" ∧
      final.events = s.events ++
        [Event.assign "main",
         Event.print "Main start  : main\n" "main",
         Event.assign "block",
         Event.print "Block start : block\n" "block",
         Event.call "funcScope" "block",
         Event.print "funcScope start : block\n" "block",
         Event.ret "funcScope" "block"] := by
  obtain ⟨v1, s1, h1, _, he1⟩ := Run_Println_returns dev (setLevel s "main")
    "Main start  :" "main" h
  obtain ⟨v2, s2, h2, hl2, he2⟩ := Run_Println_returns dev (setLevel s1 "block")
    "Block start :" "block" h
  obtain ⟨s3, h3, hl3, he3⟩ := Run_funcScope_returns dev s2 h
  refine ⟨s3, ?_, ?_, ?_⟩
  · have hm : Run.main dev s
        = (Run.Println dev (setLevel s "main") ["Main start  :", "main"]).andThen
            fun _ s => (Run.Println dev (setLevel s "block") ["Block start :", "block"]).andThen
              fun _ s => Run.funcScope dev s := rfl
    rw [hm, h1]
    simp only [Run.Result.andThen]
    rw [h2]
    simp only [Run.Result.andThen]
    exact h3
  · rw [hl3, hl2]; rfl
  · rw [he3, hl2, he2]
    simp only [setLevel]
    rw [he1]
    simp [setLevel]

/-! ## Claims -/

/-- C1: running `main` from the initial state (`level = "pkg"`, empty output)
writes exactly the three newline-terminated lines `Main start  : main`,
`Block start : block`, `funcScope start : block`, in that order, and nothing
else; the initial state is the one with `level = "pkg"` and no output. -/
theorem C1_main_output :
    initial.level = "pkg" ∧ initial.out = "" ∧
    (main initial).out =
      "Main start  : main\nBlock start : block\nfuncScope start : block\n" ∧
    (main initial).out =
      ("Main start  " ++ ":" ++ " " ++ "main" ++ "\n") ++
      ("Block start :" ++ " " ++ "block" ++ "\n") ++
      ("funcScope start :" ++ " " ++ "block" ++ "\n") ∧
    lines (main initial).out =
      ["Main start  : main", "Block start : block", "funcScope start : block"] ∧
    printed (main initial).events =
      ["Main start  : main\n", "Block start : block\n", "funcScope start : block\n"] := by
  refine ⟨rfl, rfl, ?_, ?_, ?_, ?_⟩
  · rw [main_eq]; decide
  · rw [main_eq]; decide
  · rw [main_eq]; decide
  · rw [main_eq]; decide

/-- C2 as stated fails: with `level = "a\nb"` the text appended by `funcScope`
is `funcScope start : a`, newline, `b`, newline, which is two lines, not one. -/
theorem C2_two_lines_for_newline_value :
    (funcScope { level := "a\nb", out := "", events := [] }).out
      = "funcScope start : a\nb\n" ∧
    lines (funcScope { level := "a\nb", out := "", events := [] }).out
      = ["funcScope start : a", "b"] ∧
    (lines (funcScope { level := "a\nb", out := "", events := [] }).out).length = 2 ∧
    (lines (funcScope { level := "a\nb", out := "", events := [] }).out).length ≠ 1 := by
  rw [funcScope_eq]
  decide

/-- C2 (amended): for every value `v` of `level` (and whatever was written
before), `funcScope` appends exactly the text `funcScope start : ` followed by
`v` and a newline, through a single `Println`; the text depends on `v`: two
values give the same output exactly when they are equal.  When `v` holds no
newline character the appended text is exactly one line. -/
theorem C2_funcScope_output (v w o : String) (e : List Event) :
    (funcScope { level := v, out := o, events := e }).out
      = o ++ ("funcScope start : " ++ v ++ "\n") ∧
    (funcScope { level := v, out := o, events := e }).events
      = e ++ [Event.call "funcScope" v,
              Event.print ("funcScope start : " ++ v ++ "\n") v,
              Event.ret "funcScope" v] ∧
    printed (funcScope { level := v, out := o, events := [] }).events
      = ["funcScope start : " ++ v ++ "\n"] ∧
    ((funcScope { level := v, out := o, events := e }).out
      = (funcScope { level := w, out := o, events := e }).out ↔ v = w) ∧
    ((∀ c ∈ v.data, c ≠ '\n') →
      lines (funcScope { level := v, out := "", events := e }).out
        = ["funcScope start : " ++ v]) := by
  refine ⟨?_, ?_, ?_, ?_, ?_⟩
  · rw [funcScope_eq]; simp [String.append_assoc]
  · rw [funcScope_eq]; simp [String.append_assoc]
  · rw [funcScope_eq]; simp [printed, String.append_assoc]
  · simp only [funcScope_eq, string_append_right_inj, string_append_left_inj]
  · intro hv
    have hout : (funcScope { level := v, out := "", events := e }).out
        = ("funcScope start : " ++ v) ++ "\n" := by
      rw [funcScope_eq]; simp [String.append_assoc]
    rw [hout]
    apply lines_single
    intro c hc
    rw [String.data_append, List.mem_append] at hc
    rcases hc with hc | hc
    · intro hn
      subst hn
      revert hc
      decide
    · exact hv c hc

/-- C2 (amended), instance: `"block"` holds no newline, and with
`level = "block"` the call appends the single line `funcScope start : block`. -/
theorem C2_funcScope_output_witness :
    (∀ c ∈ "block".data, c ≠ '\n') ∧
    lines (funcScope { level := "block", out := "", events := [] }).out
      = ["funcScope start : " ++ "block"] :=
  ⟨by decide, (C2_funcScope_output "block" "block" "" []).2.2.2.2 (by decide)⟩

/-- C3: `funcScope` is read-only on the shared state: `level` is unchanged by
the call, no assignment is recorded, and the output present before the call is
kept as a leading part of the output after it (the call only appends). -/
theorem C3_funcScope_read_only (s : State) :
    (funcScope s).level = s.level ∧
    assignments (funcScope s).events = assignments s.events ∧
    s.out.data <+: (funcScope s).out.data ∧
    (∃ t, (funcScope s).out = s.out ++ t) ∧
    (∃ t, (funcScope s).events = s.events ++ t) := by
  rw [funcScope_eq]
  refine ⟨rfl, ?_, ?_, ⟨_, rfl⟩, ⟨_, rfl⟩⟩
  · simp [assignments_append, assignments]
  · simp

/-- C4: `main` assigns `level` exactly twice, first `"main"` and then
`"block"`, and both assignments precede the call of `funcScope`: `level` starts
as `"pkg"`, is `"main"` at the first print, is `"block"` when `funcScope` is
called, and is `"block"` when `main` returns. -/
theorem C4_main_assigns_twice (s : State) :
    initial.level = "pkg" ∧
    (main s).events = s.events ++
      [Event.assign "main",
       Event.print "Main start  : main\n" "main",
       Event.assign "block",
       Event.print "Block start : block\n" "block",
       Event.call "funcScope" "block",
       Event.print "funcScope start : block\n" "block",
       Event.ret "funcScope" "block"] ∧
    assignments (main s).events = assignments s.events ++ ["main", "block"] ∧
    (∃ before after,
      (main s).events = s.events ++ before ++ [Event.call "funcScope" "block"] ++ after ∧
      assignments before = ["main", "block"] ∧ assignments after = []) ∧
    (main s).level = "block" ∧
    (main initial).level = "block" ∧
    assignments (main initial).events = ["main", "block"] := by
  refine ⟨rfl, ?_, ?_, ?_, ?_, ?_, ?_⟩
  · rw [main_eq]
  · rw [main_eq]; simp [assignments_append, assignments]
  · refine ⟨[Event.assign "main", Event.print "Main start  : main\n" "main",
      Event.assign "block", Event.print "Block start : block\n" "block"],
      [Event.print "funcScope start : block\n" "block", Event.ret "funcScope" "block"],
      ?_, ?_, ?_⟩
    · rw [main_eq]; simp
    · simp [assignments]
    · simp [assignments]
  · rw [main_eq]
  · rw [main_eq]
  · rw [main_eq]; simp [initial, assignments]

/-- C5: in the output of `main` the second and the third line both show the
value `"block"`: the assignment made inside the if-block is seen by the block's
own print and by `funcScope` called from the block; neither line shows `"main"`
or the initial value `"pkg"`. -/
theorem C5_block_value_visible :
    (lines (main initial).out)[1]? = some "Block start : block" ∧
    (lines (main initial).out)[2]? = some "funcScope start : block" ∧
    ((lines (main initial).out)[1]?).bind (valueShown "Block start :") = some "block" ∧
    ((lines (main initial).out)[2]?).bind (valueShown "funcScope start :") = some "block" ∧
    ((lines (main initial).out)[1]?).bind (valueShown "Block start :") ≠ some "main" ∧
    ((lines (main initial).out)[1]?).bind (valueShown "Block start :") ≠ some "pkg" ∧
    ((lines (main initial).out)[2]?).bind (valueShown "funcScope start :") ≠ some "main" ∧
    ((lines (main initial).out)[2]?).bind (valueShown "funcScope start :") ≠ some "pkg" ∧
    (main initial).events.drop 3 =
      [Event.print "Block start : block\n" "block",
       Event.call "funcScope" "block",
       Event.print "funcScope start : block\n" "block",
       Event.ret "funcScope" "block"] := by
  rw [main_eq]
  decide

/-- C6: `main` prints the same thing on every run: for any two starting values
of `level` (and any histories) the output of `main` is the same three lines, in
particular when the run starts from the value `"block"` that an earlier run of
`main` left behind. -/
theorem C6_main_output_independent_of_start (v w : String) (e e' : List Event) :
    (main { level := v, out := "", events := e }).out
      = (main { level := w, out := "", events := e' }).out ∧
    (main { level := v, out := "", events := e }).out
      = "Main start  : main\nBlock start : block\nfuncScope start : block\n" ∧
    runOutput v = runOutput w ∧
    (main initial).level = "block" ∧
    runOutput (main initial).level = runOutput initial.level ∧
    runOutput (main initial).level = (main initial).out ∧
    (main { (main initial) with out := "" }).out = (main initial).out := by
  simp only [runOutput, main_eq, initial]
  decide

/-- C7 as stated fails: when standard output is a pipe whose reader is gone,
the first `Println` of `main` raises SIGPIPE and the process ends there: `main`
does not return, there is no exit code 0, `level` is still `"main"`, nothing
was printed and neither the block nor `funcScope` was reached. -/
theorem C7_broken_pipe_ends_main_early :
    Run.main Run.brokenPipe initial
      = Run.Result.signaled
          { level := "main", out := "", events := [Event.assign "main"] } ∧
    (∀ final, Run.main Run.brokenPipe initial ≠ Run.Result.returned () final) ∧
    Run.exitCode (Run.main Run.brokenPipe initial) = none ∧
    Run.exitCode (Run.main Run.brokenPipe initial) ≠ some 0 := by
  have h : Run.main Run.brokenPipe initial
      = Run.Result.signaled
          { level := "main", out := "", events := [Event.assign "main"] } := by
    simp [Run.main, Run.Println, Run.brokenPipe, Run.Result.andThen, setLevel, initial]
  rw [h]
  simp [Run.exitCode]

/-- C7 (amended): `main` has no failure path of its own.  For every starting
state and every standard output that never answers a write with SIGPIPE, `main`
returns, with exit code 0 and no error result (an error returned by `Println`
is discarded), `level` is `"block"` at the end, and the block's assignment, its
print and the call of `funcScope` have all been executed.  When the writes are
accepted the run is the one of `main` above: the branch of `if true` is the one
executed and the output gains exactly the three lines. -/
theorem C7_main_returns_unless_sigpipe (dev : Run.Stdout) (s : State)
    (h : ∀ (s' : State) (t : String), dev s' t ≠ Run.WriteResult.sigpipe) :
    (∃ final, Run.main dev s = Run.Result.returned () final ∧
      final.level = "block" ∧
      final.events = s.events ++
        [Event.assign "main",
         Event.print "Main start  : main\n" "main",
         Event.assign "block",
         Event.print "Block start : block\n" "block",
         Event.call "funcScope" "block",
         Event.print "funcScope start : block\n" "block",
         Event.ret "funcScope" "block"]) ∧
    Run.exitCode (Run.main dev s) = some 0 ∧
    Run.main Run.accepting s = Run.Result.returned () (main s) ∧
    main s =
      funcScope
        (Println
          (setLevel (Println (setLevel s "main") ["Main start  :", "main"]) "block")
          ["Block start :", "block"]) ∧
    main s ≠ Println (setLevel s "main") ["Main start  :", "main"] ∧
    (main s).level = "block" ∧
    (main s).out = s.out ++ "Main start  : main\n" ++ "Block start : block\n"
      ++ "funcScope start : block\n" := by
  have hret := Run_main_returns dev s h
  refine ⟨hret, ?_, ?_, rfl, ?_, ?_, ?_⟩
  · obtain ⟨final, hf, _⟩ := hret
    rw [hf]; rfl
  · simp [Run.main, Run.funcScope, Run.Println, Run.accepting, Run.Result.andThen,
      main, funcScope]
  · intro hne
    have hl := congrArg State.level hne
    rw [main_eq] at hl
    simp [Println, setLevel] at hl
  · rw [main_eq]
  · rw [main_eq]

/-- C7 (amended), instance: a closed standard output never raises SIGPIPE, and
from the initial state `main` returns with exit code 0 and `level = "block"`
although every write failed. -/
theorem C7_main_returns_unless_sigpipe_witness :
    (∀ (s' : State) (t : String), Run.closed s' t ≠ Run.WriteResult.sigpipe) ∧
    (∃ final, Run.main Run.closed initial = Run.Result.returned () final ∧
      final.level = "block" ∧
      final.events = initial.events ++
        [Event.assign "main",
         Event.print "Main start  : main\n" "main",
         Event.assign "block",
         Event.print "Block start : block\n" "block",
         Event.call "funcScope" "block",
         Event.print "funcScope start : block\n" "block",
         Event.ret "funcScope" "block"]) ∧
    Run.exitCode (Run.main Run.closed initial) = some 0 ∧
    Run.main Run.accepting initial = Run.Result.returned () (main initial) ∧
    main initial =
      funcScope
        (Println
          (setLevel (Println (setLevel initial "main") ["Main start  :", "main"]) "block")
          ["Block start :", "block"]) ∧
    main initial ≠ Println (setLevel initial "main") ["Main start  :", "main"] ∧
    (main initial).level = "block" ∧
    (main initial).out = initial.out ++ "Main start  : main\n" ++ "Block start : block\n"
      ++ "funcScope start : block\n" :=
  ⟨fun _ _ => by simp [Run.closed],
   C7_main_returns_unless_sigpipe Run.closed initial (fun _ _ => by simp [Run.closed])⟩

/-- C8: the output of `main` decomposes over the call: it is the two lines
`Main start  : main` and `Block start : block` followed by exactly what
`funcScope` emits on its own in the state `level = "block"`; that is one line,
and `main` does nothing after `funcScope` returns. -/
theorem C8_main_output_decomposes (s : State) :
    (main s).out = s.out ++ "Main start  : main\n" ++ "Block start : block\n"
      ++ (funcScope { level := "block", out := "", events := [] }).out ∧
    (∃ mid : State, mid.level = "block" ∧
      mid.out = s.out ++ "Main start  : main\n" ++ "Block start : block\n" ∧
      main s = funcScope mid ∧
      (funcScope mid).out
        = mid.out ++ (funcScope { level := "block", out := "", events := [] }).out) ∧
    (funcScope { level := "block", out := "", events := [] }).out
      = "funcScope start : block\n" ∧
    lines (funcScope { level := "block", out := "", events := [] }).out
      = ["funcScope start : block"] ∧
    printed (funcScope { level := "block", out := "", events := [] }).events
      = ["funcScope start : block\n"] ∧
    (main s).events.getLast? = some (Event.ret "funcScope" "block") := by
  have hf : (funcScope { level := "block", out := "", events := [] }).out
      = "funcScope start : block\n" := by
    rw [funcScope_eq]; decide
  refine ⟨?_, ?_, hf, ?_, ?_, ?_⟩
  · rw [main_eq, hf]
  · refine ⟨Println (setLevel (Println (setLevel s "main") ["Main start  :", "main"]) "block")
      ["Block start :", "block"], ?_, ?_, rfl, ?_⟩
    · simp [Println, setLevel]
    · simp [Println_two, setLevel, String.append_assoc]
    · rw [hf, funcScope_eq]
      simp [Println_two, setLevel]
  · rw [funcScope_eq]; decide
  · rw [funcScope_eq]; decide
  · rw [main_eq]; simp

end ScopeDemo
